import Mathlib

/-!
Verification of the ccache HTTP storage helper (Go) against its
natural-language specification.  The Go source is embedded shallowly:

* bytes are `Nat`s; where Go's `byte` type guarantees a value below 256
  the embedding normalises with `% 256`;
* byte streams are `List Nat`, strings on the wire are their byte lists;
* Go slice expressions `s[:n]` that can panic are modelled with an
  `Option` result (`none` = run-time panic "slice bounds out of range");
* the HTTP backend is an oracle mapping each issued request to a
  response; the storage-adapter functions additionally record the list
  of HTTP requests they issue.
-/

/-- One lowercase hex digit, as produced by Go's `encoding/hex`
(`hextable = "0123456789abcdef"`). -/
def hexDigit (n : Nat) : Char :=
  if n < 10 then Char.ofNat (48 + n) else Char.ofNat (87 + n)

/-- Go `hex.EncodeToString(key)`: each byte `v` yields the digits
`v >> 4` and `v & 0x0f` (for a byte value `b < 256`, `b % 256 / 16 = b / 16`). -/
def hexEncode : List Nat → List Char
  | [] => []
  | b :: t => hexDigit (b % 256 / 16) :: hexDigit (b % 16) :: hexEncode t

theorem hexEncode_length (key : List Nat) : (hexEncode key).length = 2 * key.length := by
  induction key with
  | nil => rfl
  | cons b t ih => simp [hexEncode, ih]; omega

/-- Go string slicing `s[:n]`: in range it takes the first `n` bytes,
out of range it panics ("slice bounds out of range"), modelled as `none`. -/
def goSliceTo (s : List Char) (n : Nat) : Option (List Char) :=
  if n ≤ s.length then some (s.take n) else none

/-- `storageClient.keyToPath` (src/unnamed/part_001, lines 48-69).
The Go `switch s.layout` has cases `"flat"`, `"bazel"` and a default
(`subdirs`) branch.  `none` models the panic that Go's
`keyHex[:sha256HexSize-len(keyHex)]` raises when
`sha256HexSize-len(keyHex) > len(keyHex)`. -/
def storageClient.keyToPath (layout : String) (key : List Nat) : Option (List Char) :=
  let keyHex := hexEncode key
  if layout = "flat" then
    some keyHex
  else if layout = "bazel" then
    if 64 ≤ keyHex.length then
      (goSliceTo keyHex 64).map (fun h => 'a' :: 'c' :: '/' :: h)
    else
      (goSliceTo keyHex (64 - keyHex.length)).map
        (fun pad => 'a' :: 'c' :: '/' :: (keyHex ++ pad))
  else
    if keyHex.length < 2 then
      some keyHex
    else
      some (keyHex.take 2 ++ '/' :: keyHex.drop 2)

/-- C1: the claim states that in `bazel` layout every key maps to
`ac/` + 64 hex characters, short keys being padded by repeating the
key's leading hex characters as many times as needed.  The code at the
single-byte key `0x12` instead panics: `keyHex = "12"` has length 2 and
the padding slice `keyHex[:62]` is out of bounds.  This theorem
evaluates the embedded code at that failing input (`none` = panic). -/
theorem keyToPath_bazel_short_key_panics :
    storageClient.keyToPath "bazel" [18] = none := by decide

/-- C8 counterexample: `keyToPath` is not total.  At the empty key in
`bazel` layout (key length 0 ≤ 255) the padding slice `keyHex[:64]` of
the empty hex string is out of bounds and the code panics, so no path
is returned. -/
theorem keyToPath_bazel_empty_key_panics :
    storageClient.keyToPath "bazel" [] = none ∧
      ∀ p, storageClient.keyToPath "bazel" [] ≠ some p := by
  constructor
  · decide
  · intro p h
    simp [storageClient.keyToPath, goSliceTo, hexEncode] at h

/-- C8 (amended): `keyToPath` returns a path for every key of length
≤ 255 in the `flat` and `subdirs` (default) layouts, and in the `bazel`
layout for every key of at least 16 bytes (hex length ≥ 32, so the
padding slice `keyHex[:64-len(keyHex)]` stays within bounds); for
shorter keys in `bazel` layout the code panics. -/
theorem keyToPath_total_when_long (layout : String) (key : List Nat)
    (hlen : key.length ≤ 255)
    (hbazel : layout = "bazel" → 16 ≤ key.length) :
    ∃ p, storageClient.keyToPath layout key = some p := by
  unfold storageClient.keyToPath
  by_cases hf : layout = "flat"
  · simp [hf]
  · by_cases hb : layout = "bazel"
    · have hk : 16 ≤ key.length := hbazel hb
      have hx : 32 ≤ (hexEncode key).length := by
        rw [hexEncode_length]; omega
      simp only [hf, if_false, hb, if_true]
      by_cases h64 : 64 ≤ (hexEncode key).length
      · simp [goSliceTo, h64]
      · have : 64 - (hexEncode key).length ≤ (hexEncode key).length := by omega
        simp [goSliceTo, h64, this]
    · simp only [hf, if_false, hb, if_true]
      by_cases h2 : (hexEncode key).length < 2
      · simp [h2]
      · simp [h2]

/-- C8 witness: a concrete 16-byte key in `bazel` layout (and hence all
hypotheses of the amended totality theorem discharged concretely). -/
theorem keyToPath_total_when_long_witness :
    ∃ p, storageClient.keyToPath "bazel" (List.replicate 16 0) = some p :=
  keyToPath_total_when_long "bazel" (List.replicate 16 0) (by decide)
    (fun _ => by decide)

/-- C10: every layout string other than `"flat"` and `"bazel"` (not
only the documented `"subdirs"`) falls into the `switch` default branch
and gets the subdirs scheme: the hex unchanged when shorter than 2
characters, otherwise the first 2 hex characters, a `/`, and the rest;
no unrecognized layout string causes an error. -/
theorem keyToPath_default_subdirs (layout : String) (key : List Nat)
    (hf : layout ≠ "flat") (hb : layout ≠ "bazel") :
    storageClient.keyToPath layout key =
      some (if (hexEncode key).length < 2 then hexEncode key
            else (hexEncode key).take 2 ++ '/' :: (hexEncode key).drop 2) := by
  unfold storageClient.keyToPath
  simp only [hf, if_false, hb]
  by_cases h2 : (hexEncode key).length < 2 <;> simp [h2]

/-- C10 witness: the unrecognized layout string `"unknown"` on the
1-byte key `0xab` takes the subdirs branch. -/
theorem keyToPath_default_subdirs_witness :
    storageClient.keyToPath "unknown" [171] =
      some (if (hexEncode [171]).length < 2 then hexEncode [171]
            else (hexEncode [171]).take 2 ++ '/' :: (hexEncode [171]).drop 2) :=
  keyToPath_default_subdirs "unknown" [171] (by decide) (by decide)

/-! ### Storage adapter: HTTP operations (src/unnamed/part_001) -/

/-- An HTTP method issued by the storage adapter. -/
inductive HttpMethod
  | GET | HEAD | PUT | DELETE
deriving DecidableEq, Repr

/-- An HTTP response as seen by the adapter: status code and body bytes. -/
structure HttpResponse where
  status : Nat
  body : List Nat
deriving DecidableEq, Repr

/-- The HTTP backend as an oracle: the response each request would get. -/
abbrev Backend := HttpMethod → HttpResponse

/-- Outcome of `storageClient.get` (Go return `([]byte, bool, error)`):
the Go error `fmt.Errorf("HTTP %d", resp.StatusCode)` carries the
status code, modelled by `error status`. -/
inductive GetOutcome
  | notFound
  | found (value : List Nat)
  | error (status : Nat)
deriving DecidableEq, Repr

/-- `storageClient.get` (src/unnamed/part_001, lines 85-122), as a
function of the response to the single GET request it issues:
`404` → not found; any status other than `200`
(`resp.StatusCode != http.StatusOK`) → error; `200` → the full body. -/
def storageClient.get (resp : HttpResponse) : GetOutcome :=
  if resp.status = 404 then .notFound
  else if resp.status ≠ 200 then .error resp.status
  else .found resp.body

/-- `storageClient.exists` (src/unnamed/part_001, lines 203-220), as a
function of the response to the HEAD request it issues:
`resp.StatusCode == http.StatusOK`. -/
def storageClient.exists (resp : HttpResponse) : Bool :=
  resp.status = 200

/-- Outcome of `storageClient.put` (Go return `(bool, error)`). -/
inductive PutOutcome
  | stored
  | notStored
  | error (status : Nat)
deriving DecidableEq, Repr

/-- The final status check of `storageClient.put` on the PUT response:
any 2xx → stored, otherwise `fmt.Errorf("HTTP %d", ...)`. -/
def putStatusCheck (resp : HttpResponse) : PutOutcome :=
  if 200 ≤ resp.status ∧ resp.status < 300 then .stored
  else .error resp.status

/-- `storageClient.put` (src/unnamed/part_001, lines 124-165) against a
backend oracle, also recording the HTTP requests issued in order: with
`overwrite = false` it first calls `s.exists` (one HEAD request) and
returns not-stored when that reports existence; otherwise (and always
when `overwrite = true`) it issues the PUT. -/
def storageClient.put (overwrite : Bool) (backend : Backend) :
    PutOutcome × List HttpMethod :=
  if !overwrite then
    if storageClient.exists (backend .HEAD) then
      (.notStored, [.HEAD])
    else
      (putStatusCheck (backend .PUT), [.HEAD, .PUT])
  else
    (putStatusCheck (backend .PUT), [.PUT])

/-- C2 counterexample: the claim maps every 2xx GET response to
success, but the code tests `resp.StatusCode != http.StatusOK`, so the
2xx status 204 yields the error `HTTP 204`, not success with the body. -/
theorem get_status204_not_success :
    storageClient.get { status := 204, body := [] } = .error 204 ∧
      storageClient.get { status := 204, body := [] } ≠ .found [] := by
  constructor <;> decide

/-- C2 (amended): `storageClient.get` maps 404 to not-found with no
error, 200 to success with the full response body, and every other
status — including 2xx statuses other than 200 — to an error carrying
the status code. -/
theorem get_status_dispatch (resp : HttpResponse) :
    (resp.status = 404 → storageClient.get resp = .notFound) ∧
      (resp.status = 200 → storageClient.get resp = .found resp.body) ∧
      (resp.status ≠ 404 → resp.status ≠ 200 →
        storageClient.get resp = .error resp.status) := by
  refine ⟨fun h4 => ?_, fun h2 => ?_, fun h4 h2 => ?_⟩
  · simp [storageClient.get, h4]
  · simp [storageClient.get, h2]
  · simp [storageClient.get, h4, h2]

/-- C2 witness: the three cases of the dispatch theorem at the concrete
responses 404, 200 (body `[7]`) and 503. -/
theorem get_status_dispatch_witness :
    storageClient.get { status := 404, body := [] } = .notFound ∧
      storageClient.get { status := 200, body := [7] } = .found [7] ∧
      storageClient.get { status := 503, body := [] } = .error 503 :=
  ⟨(get_status_dispatch { status := 404, body := [] }).1 (by decide),
   (get_status_dispatch { status := 200, body := [7] }).2.1 (by decide),
   (get_status_dispatch { status := 503, body := [] }).2.2 (by decide) (by decide)⟩

/-- C3 counterexample: the claim says a non-overwriting put returns
not-stored without issuing the PUT whenever the HEAD pre-check returns
any 2xx status.  With a backend whose HEAD answers 204 (a 2xx) and
whose PUT answers 201, the code's `exists` check (`== 200`) fails, so
the PUT is issued and the value is stored. -/
theorem put_head204_still_puts :
    storageClient.put false
        (fun m => if m = .HEAD then { status := 204, body := [] }
                  else { status := 201, body := [] }) =
      (.stored, [.HEAD, .PUT]) ∧
      storageClient.put false
        (fun m => if m = .HEAD then { status := 204, body := [] }
                  else { status := 201, body := [] }) ≠
      (.notStored, [.HEAD]) := by
  constructor <;> decide

/-- C3 (amended): a put with `overwrite = false` first issues a HEAD
request; exactly when that HEAD returns status 200 it returns
not-stored without issuing the PUT, leaving the entry unchanged; for
any other HEAD status (including other 2xx statuses) it proceeds to
issue the PUT. -/
theorem put_no_overwrite_head200 (backend : Backend) :
    ((backend .HEAD).status = 200 →
      storageClient.put false backend = (.notStored, [.HEAD])) ∧
      ((backend .HEAD).status ≠ 200 →
        storageClient.put false backend =
          (putStatusCheck (backend .PUT), [.HEAD, .PUT])) := by
  constructor
  · intro h
    simp [storageClient.put, storageClient.exists, h]
  · intro h
    simp [storageClient.put, storageClient.exists, h]

/-- C3 witness: both branches of the amended theorem at concrete
backends (HEAD = 200, and HEAD = 404 with PUT = 201). -/
theorem put_no_overwrite_head200_witness :
    storageClient.put false (fun _ => { status := 200, body := [] }) =
        (.notStored, [.HEAD]) ∧
      storageClient.put false
          (fun m => if m = .HEAD then { status := 404, body := [] }
                    else { status := 201, body := [] }) =
        (putStatusCheck { status := 201, body := [] }, [.HEAD, .PUT]) :=
  ⟨(put_no_overwrite_head200 (fun _ => { status := 200, body := [] })).1 (by decide),
   (put_no_overwrite_head200
      (fun m => if m = .HEAD then { status := 404, body := [] }
                else { status := 201, body := [] })).2 (by decide)⟩

/-- C9: the HEAD pre-check is issued if and only if `overwrite = false`,
and a put with `overwrite = true` issues exactly one HTTP request, the
PUT, regardless of the backend's state. -/
theorem put_overwrite_single_request (overwrite : Bool) (backend : Backend) :
    (HttpMethod.HEAD ∈ (storageClient.put overwrite backend).2 ↔ overwrite = false) ∧
      (storageClient.put true backend).2 = [.PUT] := by
  constructor
  · cases overwrite
    · by_cases h : storageClient.exists (backend .HEAD) <;>
        simp [storageClient.put, h]
    · simp [storageClient.put]
  · simp [storageClient.put]

/-! ### Request headers (src/unnamed/part_001: `addHeaders`, `put`) -/

/-- A Go `http.Header` viewed through `Header.Set` / lookup: a map from
header name to its (single) value.  Header names are taken as written
(the Go library canonicalises them; the names used here —
`Authorization`, `Content-Type` — are already canonical). -/
def HeaderMap : Type := String → Option String

/-- Go `req.Header.Set(k, v)`: replaces any existing value for `k`. -/
def headerSet (h : HeaderMap) (k v : String) : HeaderMap :=
  fun x => if x = k then some v else h x

/-- The headers of a fresh `http.NewRequest`: none set. -/
def emptyHeader : HeaderMap := fun _ => none

/-- The configuration fields `addHeaders` reads (Go `config`): the
bearer token and the extra headers.  The extra headers live in a Go
map, so their names are distinct; the list here is the map's entries
in iteration order. -/
structure config where
  bearerToken : String
  headers : List (String × String)

/-- `storageClient.addHeaders` (src/unnamed/part_001, lines 222-230):
set `Authorization: Bearer <token>` when a token is configured, then
`Set` every configured extra header. -/
def storageClient.addHeaders (cfg : config) (h : HeaderMap) : HeaderMap :=
  let h1 := if cfg.bearerToken ≠ "" then
      headerSet h "Authorization" ("Bearer " ++ cfg.bearerToken)
    else h
  cfg.headers.foldl (fun acc kv => headerSet acc kv.1 kv.2) h1

/-- The headers of a GET/HEAD/DELETE request: `addHeaders` only
(lines 100, 182, 209). -/
def getRequestHeaders (cfg : config) : HeaderMap :=
  storageClient.addHeaders cfg emptyHeader

/-- The headers of a PUT request (lines 149-150): `addHeaders` first,
then `req.Header.Set("Content-Type", "application/octet-stream")`. -/
def putRequestHeaders (cfg : config) : HeaderMap :=
  headerSet (storageClient.addHeaders cfg emptyHeader)
    "Content-Type" "application/octet-stream"

theorem foldl_headerSet_of_forall_ne (l : List (String × String)) (h : HeaderMap)
    (x : String) (hx : ∀ kv ∈ l, kv.1 ≠ x) :
    l.foldl (fun acc kv => headerSet acc kv.1 kv.2) h x = h x := by
  induction l generalizing h with
  | nil => rfl
  | cons kv t ih =>
    simp only [List.foldl_cons]
    rw [ih _ (fun p hp => hx p (List.mem_cons_of_mem _ hp))]
    have hne : x ≠ kv.1 := Ne.symm (hx kv (List.mem_cons_self _ _))
    simp [headerSet, hne]

theorem foldl_headerSet_of_mem : ∀ (l : List (String × String)) (h : HeaderMap)
    (x v : String), (l.map Prod.fst).Nodup → (x, v) ∈ l →
    l.foldl (fun acc kv => headerSet acc kv.1 kv.2) h x = some v := by
  intro l
  induction l with
  | nil => intro h x v _ hm; cases hm
  | cons kv t ih =>
    intro h x v hnd hm
    rw [List.map_cons, List.nodup_cons] at hnd
    simp only [List.foldl_cons]
    rcases List.mem_cons.mp hm with heq | ht
    · have hx : kv.1 = x := by rw [← heq]
      rw [foldl_headerSet_of_forall_ne]
      · rw [← heq]
        simp [headerSet]
      · intro p hp hpx
        apply hnd.1
        rw [hx, ← hpx]
        exact List.mem_map_of_mem Prod.fst hp
    · exact ih _ x v hnd.2 ht

/-- C4 counterexample: the claim says extra headers are applied last,
so a configured extra `Content-Type` overrides the adapter's default on
PUT.  In the code `addHeaders` runs *before*
`req.Header.Set("Content-Type", "application/octet-stream")`, so with
the extra header `Content-Type: text/plain` configured, the PUT request
still carries `application/octet-stream`. -/
theorem put_content_type_not_overridable :
    putRequestHeaders ⟨"tok", [("Content-Type", "text/plain")]⟩ "Content-Type" =
      some "application/octet-stream" ∧
      putRequestHeaders ⟨"tok", [("Content-Type", "text/plain")]⟩ "Content-Type" ≠
        some "text/plain" := by
  constructor
  · rfl
  · intro h
    simp [putRequestHeaders, storageClient.addHeaders, headerSet] at h

/-- C4 (amended): every outgoing request carries the configured bearer
token (when an extra header does not reuse the `Authorization` name)
and all configured extra headers — except that for PUT requests the
adapter sets `Content-Type: application/octet-stream` *after* the extra
headers, so the default overrides a configured extra `Content-Type`
rather than the other way round. -/
theorem headers_applied (cfg : config) (hnd : (cfg.headers.map Prod.fst).Nodup) :
    (∀ k v, (k, v) ∈ cfg.headers → getRequestHeaders cfg k = some v) ∧
      (∀ k v, (k, v) ∈ cfg.headers → k ≠ "Content-Type" →
        putRequestHeaders cfg k = some v) ∧
      putRequestHeaders cfg "Content-Type" = some "application/octet-stream" ∧
      (cfg.bearerToken ≠ "" → "Authorization" ∉ cfg.headers.map Prod.fst →
        getRequestHeaders cfg "Authorization" =
            some ("Bearer " ++ cfg.bearerToken) ∧
          putRequestHeaders cfg "Authorization" =
            some ("Bearer " ++ cfg.bearerToken)) := by
  have hget : ∀ k v, (k, v) ∈ cfg.headers → getRequestHeaders cfg k = some v :=
    fun k v hm => foldl_headerSet_of_mem _ _ _ _ hnd hm
  have hauth : cfg.bearerToken ≠ "" → "Authorization" ∉ cfg.headers.map Prod.fst →
      getRequestHeaders cfg "Authorization" = some ("Bearer " ++ cfg.bearerToken) := by
    intro htok hmem
    unfold getRequestHeaders storageClient.addHeaders
    rw [foldl_headerSet_of_forall_ne]
    · simp [htok, headerSet]
    · intro p hp hpx
      exact hmem (hpx ▸ List.mem_map_of_mem Prod.fst hp)
  refine ⟨hget, fun k v hm hk => ?_, ?_, fun htok hmem => ⟨hauth htok hmem, ?_⟩⟩
  · unfold putRequestHeaders
    rw [show (headerSet (storageClient.addHeaders cfg emptyHeader)
        "Content-Type" "application/octet-stream") k = storageClient.addHeaders cfg
        emptyHeader k from by simp [headerSet, hk]]
    exact hget k v hm
  · simp [putRequestHeaders, headerSet]
  · unfold putRequestHeaders
    rw [show (headerSet (storageClient.addHeaders cfg emptyHeader)
        "Content-Type" "application/octet-stream") "Authorization" =
        storageClient.addHeaders cfg emptyHeader "Authorization" from by
      simp [headerSet]]
    exact hauth htok hmem

/-- C4 witness: the amended theorem at the concrete configuration
`bearerToken = "tok"`, extra headers `X-Custom: 1`. -/
theorem headers_applied_witness :
    getRequestHeaders ⟨"tok", [("X-Custom", "1")]⟩ "X-Custom" = some "1" ∧
      putRequestHeaders ⟨"tok", [("X-Custom", "1")]⟩ "X-Custom" = some "1" ∧
      putRequestHeaders ⟨"tok", [("X-Custom", "1")]⟩ "Content-Type" =
        some "application/octet-stream" ∧
      getRequestHeaders ⟨"tok", [("X-Custom", "1")]⟩ "Authorization" =
        some "Bearer tok" :=
  ⟨(headers_applied _ (by decide)).1 "X-Custom" "1" (by decide),
   (headers_applied _ (by decide)).2.1 "X-Custom" "1" (by decide) (by decide),
   (headers_applied _ (by decide)).2.2.1,
   ((headers_applied _ (by decide)).2.2.2 (by decide) (by decide)).1⟩

/-! ### Protocol codec and request dispatch (src/protocol.go) -/

def requestGet : Nat := 0x00
def requestPut : Nat := 0x01
def requestRemove : Nat := 0x02
def requestStop : Nat := 0x03
def responseOK : Nat := 0x00
def responseNoop : Nat := 0x01
def responseErr : Nat := 0x02
def putFlagOverwrite : Nat := 0x01

/-- `readByte` (protocol.go, lines 117-123): `io.ReadFull` of one byte;
an empty stream is EOF (`none`). -/
def readByte (s : List Nat) : Option (Nat × List Nat) :=
  match s with
  | [] => none
  | b :: t => some (b, t)

/-- `io.ReadFull(r, make([]byte, n))`: the first `n` bytes and the rest
of the stream, or a framing error when fewer than `n` bytes remain. -/
def readFull (n : Nat) (s : List Nat) : Option (List Nat × List Nat) :=
  if n ≤ s.length then some (s.take n, s.drop n) else none

/-- `readKey` (protocol.go, lines 60-72): a 1-byte length, then that
many key bytes. -/
def readKey (s : List Nat) : Option (List Nat × List Nat) :=
  match readByte s with
  | none => none
  | some (keyLen, rest) => readFull keyLen rest

/-- Little-endian encoding of `n` into `w` bytes (the fixed-size
integer layout used by `encoding/binary` with the platform's native
endianness; the round-trip below is endianness-independent). -/
def leEncode : Nat → Nat → List Nat
  | 0, _ => []
  | w + 1, n => n % 256 :: leEncode w (n / 256)

/-- Little-endian decoding, the inverse direction of `leEncode`. -/
def leDecode : List Nat → Nat
  | [] => 0
  | b :: t => b % 256 + 256 * leDecode t

theorem leEncode_length (w n : Nat) : (leEncode w n).length = w := by
  induction w generalizing n with
  | zero => rfl
  | succ w ih => simp [leEncode, ih]

theorem leDecode_leEncode (w n : Nat) : leDecode (leEncode w n) = n % 256 ^ w := by
  induction w generalizing n with
  | zero => simp [leEncode, leDecode, Nat.mod_one]
  | succ w ih =>
    simp only [leEncode, leDecode, ih]
    rw [pow_succ, mul_comm (256 ^ w) 256, Nat.mod_mul,
      Nat.mod_mod_of_dvd n dvd_rfl]

/-- `readValue` (protocol.go, lines 74-86): `binary.Read` of an 8-byte
`uint64` length, then that many value bytes. -/
def readValue (s : List Nat) : Option (List Nat × List Nat) :=
  if 8 ≤ s.length then readFull (leDecode (s.take 8)) (s.drop 8) else none

/-- `writeValue` (protocol.go, lines 103-110): `binary.Write` of
`uint64(len(value))` followed by the value bytes. -/
def writeValue (value : List Nat) : List Nat :=
  leEncode 8 value.length ++ value

/-- `writeMsg` (protocol.go, lines 125-134): truncate to 255 bytes,
then a `uint8` length byte followed by the message bytes. -/
def writeMsg (msg : List Nat) : List Nat :=
  let m := if 255 < msg.length then msg.take 255 else msg
  m.length % 256 :: m

/-- `readMsg` (protocol.go, lines 136-148): a 1-byte length, then that
many message bytes. -/
def readMsg (s : List Nat) : Option (List Nat × List Nat) :=
  match readByte s with
  | none => none
  | some (msgLen, rest) => readFull msgLen rest

/-- Modelled from the spec: the client-side wire encoding of a key,
`keyLen:u8, key:bytes[keyLen]` (§4.3); the repository contains only the
decoder `readKey`, the encoder lives in the ccache client. -/
def encodeKey (key : List Nat) : List Nat :=
  key.length % 256 :: key

/-- `writeOK` (protocol.go): the single status byte `0x00`. -/
def writeOK : List Nat := [responseOK]

/-- `writeNoop` (protocol.go): the single status byte `0x01`. -/
def writeNoop : List Nat := [responseNoop]

/-- `writeErr` (protocol.go, lines 96-101): status byte `0x02` followed
by the message frame. -/
def writeErr (msg : List Nat) : List Nat :=
  responseErr :: writeMsg msg

/-- C6: decode after encode is the identity for every codec frame:
`readValue` after `writeValue` for every value (any length below
2^64, the range of the Go `uint64` length field, including 0),
`readKey` after the key encoding for every key of length 0 through
255, and `readMsg` after `writeMsg` for every message of at most 255
bytes — each also leaving the rest of the stream untouched. -/
theorem codec_roundtrip :
    (∀ (v rest : List Nat), v.length < 2 ^ 64 →
        readValue (writeValue v ++ rest) = some (v, rest)) ∧
      (∀ (k rest : List Nat), k.length ≤ 255 →
        readKey (encodeKey k ++ rest) = some (k, rest)) ∧
      (∀ (m rest : List Nat), m.length ≤ 255 →
        readMsg (writeMsg m ++ rest) = some (m, rest)) := by
  refine ⟨fun v rest hv => ?_, fun k rest hk => ?_, fun m rest hm => ?_⟩
  · have hlen : (leEncode 8 v.length).length = 8 := leEncode_length 8 v.length
    have h8 : 8 ≤ (writeValue v ++ rest).length := by
      simp [writeValue, hlen]
    unfold readValue
    rw [if_pos h8, writeValue, List.append_assoc, List.take_left' hlen,
      List.drop_left' hlen, leDecode_leEncode]
    have hv' : v.length % 2 ^ 64 = v.length := Nat.mod_eq_of_lt hv
    have h256 : (256 : Nat) ^ 8 = 2 ^ 64 := by norm_num
    rw [h256, hv', readFull, if_pos (by simp), List.take_left, List.drop_left]
  · have hk' : k.length % 256 = k.length := Nat.mod_eq_of_lt (by omega)
    simp only [readKey, encodeKey, List.cons_append, readByte, hk']
    rw [readFull, if_pos (by simp), List.take_left, List.drop_left]
  · have ht : ¬ 255 < m.length := by omega
    simp only [readMsg, writeMsg, ht, if_false, List.cons_append, readByte]
    have hm' : m.length % 256 = m.length := Nat.mod_eq_of_lt (by omega)
    rw [hm', readFull, if_pos (by simp), List.take_left, List.drop_left]

/-- C6 witness: the three round-trips at concrete frames — a 3-byte
value, the empty key, and a 1-byte message, each followed by further
stream bytes. -/
theorem codec_roundtrip_witness :
    readValue (writeValue [1, 2, 3] ++ [9]) = some ([1, 2, 3], [9]) ∧
      readKey (encodeKey [] ++ [5]) = some ([], [5]) ∧
      readMsg (writeMsg [65] ++ [7]) = some ([65], [7]) :=
  ⟨codec_roundtrip.1 [1, 2, 3] [9] (by norm_num),
   codec_roundtrip.2.1 [] [5] (by decide),
   codec_roundtrip.2.2 [65] [7] (by decide)⟩

/-- The `storage` interface of protocol.go: `get` returns a value or
not-found, `put` whether the value was stored, `remove` whether the key
was removed; each can fail with an error whose message bytes reach the
client via `writeErr`. -/
structure storage where
  get : List Nat → Except (List Nat) (Option (List Nat))
  put : List Nat → List Nat → Bool → Except (List Nat) Bool
  remove : List Nat → Except (List Nat) Bool

/-- `handleGet` (protocol.go, lines 150-174): read the key, call the
storage, answer Err / Noop / OK+value; a framing error (`none`)
terminates the connection. -/
def handleGet (st : storage) (s : List Nat) : Option (List Nat × List Nat) :=
  match readKey s with
  | none => none
  | some (key, rest) =>
    match st.get key with
    | .error e => some (writeErr e, rest)
    | .ok none => some (writeNoop, rest)
    | .ok (some value) => some (writeOK ++ writeValue value, rest)

/-- `handlePut` (protocol.go, lines 176-208): read key, flags and
value; bit 0 of the flags is the overwrite flag. -/
def handlePut (st : storage) (s : List Nat) : Option (List Nat × List Nat) :=
  match readKey s with
  | none => none
  | some (key, s1) =>
    match readByte s1 with
    | none => none
    | some (flags, s2) =>
      match readValue s2 with
      | none => none
      | some (value, s3) =>
        match st.put key value (flags.land putFlagOverwrite ≠ 0) with
        | .error e => some (writeErr e, s3)
        | .ok false => some (writeNoop, s3)
        | .ok true => some (writeOK, s3)

/-- `handleRemove` (protocol.go, lines 210-231). -/
def handleRemove (st : storage) (s : List Nat) : Option (List Nat × List Nat) :=
  match readKey s with
  | none => none
  | some (key, rest) =>
    match st.remove key with
    | .error e => some (writeErr e, rest)
    | .ok false => some (writeNoop, rest)
    | .ok true => some (writeOK, rest)

/-- The `"unknown request type: 0x%02x"` message of processRequest:
for a byte `t < 256`, `%02x` prints exactly two lowercase hex digits. -/
def hexDigitCode (n : Nat) : Nat :=
  if n < 10 then 48 + n else 87 + n

def strBytes (s : String) : List Nat :=
  s.toList.map Char.toNat

def unknownTypeMsg (t : Nat) : List Nat :=
  strBytes "unknown request type: 0x" ++
    [hexDigitCode (t / 16 % 16), hexDigitCode (t % 16)]

/-- `processRequest` (protocol.go, lines 238-268): read the request
type byte and dispatch.  The result is `none` when the connection is
terminated (read failure), otherwise the response bytes written, the
stop flag, and the unread rest of the stream. -/
def processRequest (st : storage) (s : List Nat) :
    Option (List Nat × Bool × List Nat) :=
  match readByte s with
  | none => none
  | some (t, rest) =>
    if t = requestGet then
      (handleGet st rest).map (fun pr => (pr.1, false, pr.2))
    else if t = requestPut then
      (handlePut st rest).map (fun pr => (pr.1, false, pr.2))
    else if t = requestRemove then
      (handleRemove st rest).map (fun pr => (pr.1, false, pr.2))
    else if t = requestStop then
      some (writeOK, true, rest)
    else
      some (writeErr (unknownTypeMsg t), false, rest)

/-- The request loop of `ipcServer.handleConnection`
(src/unnamed/part_000, lines 89-107), with explicit fuel: keep calling
`processRequest` until a read error (connection closed), a stop
request, or the fuel is exhausted; the result is everything written to
the connection. -/
def handleLoop (st : storage) : Nat → List Nat → List Nat
  | 0, _ => []
  | fuel + 1, s =>
    match processRequest st s with
    | none => []
    | some (out, true, _) => out
    | some (out, false, rest) => out ++ handleLoop st fuel rest

/-- C5: any request type byte other than 0x00-0x03 makes
`processRequest` write the Err response whose message is
`unknown request type: 0x` followed by the byte's two hex digits,
report `stopRequested = false`, and leave the rest of the stream
unread; the connection handler then keeps reading further requests
from the same connection. -/
theorem processRequest_unknown_type (st : storage) (t : Nat)
    (rest : List Nat) (fuel : Nat) (h4 : 4 ≤ t) (h256 : t < 256) :
    processRequest st (t :: rest) =
        some (writeErr (unknownTypeMsg t), false, rest) ∧
      handleLoop st (fuel + 1) (t :: rest) =
        writeErr (unknownTypeMsg t) ++ handleLoop st fuel rest := by
  have h0 : t ≠ requestGet := by simp [requestGet]; omega
  have h1 : t ≠ requestPut := by simp [requestPut]; omega
  have h2 : t ≠ requestRemove := by simp [requestRemove]; omega
  have h3 : t ≠ requestStop := by simp [requestStop]; omega
  have hp : processRequest st (t :: rest) =
      some (writeErr (unknownTypeMsg t), false, rest) := by
    simp [processRequest, readByte, h0, h1, h2, h3]
  exact ⟨hp, by rw [handleLoop, hp]⟩

/-- C5 witness: request type 0xFF on a stream whose next request is a
valid Stop request (byte 0x03), with a trivial storage. -/
theorem processRequest_unknown_type_witness :
    processRequest
        ⟨fun _ => .ok none, fun _ _ _ => .ok true, fun _ => .ok false⟩
        (255 :: [3]) =
      some (writeErr (unknownTypeMsg 255), false, [3]) ∧
      handleLoop
          ⟨fun _ => .ok none, fun _ _ _ => .ok true, fun _ => .ok false⟩
          2 (255 :: [3]) =
        writeErr (unknownTypeMsg 255) ++
          handleLoop
            ⟨fun _ => .ok none, fun _ _ _ => .ok true, fun _ => .ok false⟩
            1 [3] :=
  processRequest_unknown_type
    ⟨fun _ => .ok none, fun _ _ _ => .ok true, fun _ => .ok false⟩
    255 [3] 1 (by decide) (by decide)

/-! ### Idle shutdown timer (src/unnamed/part_000) -/

/-- A timer created by `time.AfterFunc`: its countdown duration. -/
structure TimerHandle where
  duration : Nat
deriving DecidableEq, Repr

/-- The server state the idle-timer logic touches: the `idleTimer`
field of `ipcServer` and whether the global cancellation (`s.cancel`)
has fired. -/
structure ServerState where
  idleTimer : Option TimerHandle
  cancelled : Bool
deriving DecidableEq, Repr

/-- The state of `newServer` (src/unnamed/part_000, lines 26-41): no
timer allocated, context not cancelled. -/
def newServerState : ServerState :=
  { idleTimer := none, cancelled := false }

/-- `ipcServer.resetIdleTimer` (src/unnamed/part_000, lines 110-126):
when the configured idle timeout is zero it returns immediately;
otherwise it stops any existing timer and replaces it with a fresh
`time.AfterFunc` timer. -/
def ipcServer.resetIdleTimer (idleTimeout : Nat) (s : ServerState) : ServerState :=
  if idleTimeout = 0 then s
  else { s with idleTimer := some { duration := idleTimeout } }

/-- The events that touch the timer and the cancellation signal:
observed activity (server start, accepted connection, processed
request) resets the timer; an armed timer firing, a Stop request, or an
external cancellation fire the cancellation signal. -/
inductive ServerEvent
  | activity
  | timerFires
  | stopRequest
  | externalCancel
deriving DecidableEq, Repr

def serverStep (idleTimeout : Nat) (s : ServerState) : ServerEvent → ServerState
  | .activity => ipcServer.resetIdleTimer idleTimeout s
  | .timerFires => if s.idleTimer.isSome then { s with cancelled := true } else s
  | .stopRequest => { s with cancelled := true }
  | .externalCancel => { s with cancelled := true }

/-- C7: with a configured idle timeout of zero, `resetIdleTimer`
returns without touching the server state — no timer is ever allocated
or armed — and therefore no run of activity/timer events starting from
the fresh server state can trigger the cancellation: the server runs
until an explicit stop request or external cancellation. -/
theorem resetIdleTimer_zero_noop :
    (∀ s : ServerState, ipcServer.resetIdleTimer 0 s = s) ∧
      (∀ evs : List ServerEvent,
        (∀ e ∈ evs, e = ServerEvent.activity ∨ e = ServerEvent.timerFires) →
        evs.foldl (serverStep 0) newServerState = newServerState) := by
  have hreset : ∀ s : ServerState, ipcServer.resetIdleTimer 0 s = s := by
    intro s
    simp [ipcServer.resetIdleTimer]
  refine ⟨hreset, fun evs hevs => ?_⟩
  have hstep : ∀ e, (e = ServerEvent.activity ∨ e = ServerEvent.timerFires) →
      serverStep 0 newServerState e = newServerState := by
    intro e he
    rcases he with he | he <;> subst he
    · exact hreset newServerState
    · simp [serverStep, newServerState]
  induction evs with
  | nil => rfl
  | cons e t ih =>
    rw [List.foldl_cons, hstep e (hevs e (List.mem_cons_self _ _))]
    exact ih (fun e' he' => hevs e' (List.mem_cons_of_mem _ he'))

/-- C7 witness: a concrete event run — activity followed by a (vacuous)
timer-fire — leaves the fresh zero-timeout server state unchanged. -/
theorem resetIdleTimer_zero_noop_witness :
    ipcServer.resetIdleTimer 0 newServerState = newServerState ∧
      List.foldl (serverStep 0) newServerState
          [ServerEvent.activity, ServerEvent.timerFires] = newServerState :=
  ⟨resetIdleTimer_zero_noop.1 newServerState,
   resetIdleTimer_zero_noop.2 [ServerEvent.activity, ServerEvent.timerFires]
     (by decide)⟩
